import Mathlib

/-!
Verification of the audio feature-extraction pipeline in `src/dataset.py`.

The script converts a directory of RAVDESS-style speech recordings into a
fixed-shape MFCC feature dataset.  We give a shallow embedding:

* A feature matrix is a `List (List Int)` — one inner list per time frame
  (the script stores `mfcc.T`, rows = time, columns = coefficients).
* Decoding plus MFCC computation (`librosa.load` and
  `librosa.feature.mfcc` followed by `.T`) is an external call; an
  `AudioFile` carries its outcome: `some m` is the raw transposed MFCC
  matrix, `none` models the call raising an exception (which
  `extract_features` catches and turns into a `None` return).  Librosa is
  invoked with the fixed parameter `n_mfcc = N_MFCC`, so each row of a raw
  matrix has length `N_MFCC`; theorems carry this as a hypothesis where
  they need it.
* Numpy arrays are modelled by lists together with explicit shape
  computations (`npStackShape`).
-/

namespace DatasetPy

/-- A 2-D numeric matrix as a list of rows (time frames). -/
abbrev Mat := List (List Int)

/-- Constant `MAX_LEN = 173` from the configuration block. -/
def MAX_LEN : Nat := 173

/-- Constant `N_MFCC = 40` from the configuration block. -/
def N_MFCC : Nat := 40

/-- The `EMOTIONS` dict: the fixed 8-entry code-to-emotion mapping. -/
def EMOTIONS : List (String × String) :=
  [("01", "neutral"),
   ("02", "calm"),
   ("03", "happy"),
   ("04", "sad"),
   ("05", "angry"),
   ("06", "fearful"),
   ("07", "disgust"),
   ("08", "surprised")]

/-- `EMOTIONS.get(code)`: dictionary lookup returning `None` for absent keys. -/
def emotionsGet (code : String) : Option String :=
  EMOTIONS.lookup code

/-- One discovered `.wav` file: its basename and the outcome of decoding it.
`decoded = some m` is the raw matrix `librosa.feature.mfcc(...).T`;
`decoded = none` models `librosa.load`/`mfcc` raising an exception. -/
structure AudioFile where
  name : String
  decoded : Option Mat

/-- The pad/truncate normalisation inside `extract_features`:
if `mfcc.shape[0] < MAX_LEN` append zero rows via
`np.pad(mfcc, ((0, pad_width), (0, 0)), mode='constant')`
(the padded rows have the matrix's fixed column count `N_MFCC`,
set by librosa's `n_mfcc` parameter), else keep `mfcc[:MAX_LEN, :]`. -/
def pad_or_truncate (mfcc : Mat) : Mat :=
  if mfcc.length < MAX_LEN then
    mfcc ++ List.replicate (MAX_LEN - mfcc.length) (List.replicate N_MFCC 0)
  else
    mfcc.take MAX_LEN

/-- `extract_features(file_path)`: on a successful decode, normalise the raw
matrix; on any exception, catch it, log, and return `None`. -/
def extract_features (f : AudioFile) : Option Mat :=
  match f.decoded with
  | some mfcc => some (pad_or_truncate mfcc)
  | none => none

/-- Helper for `pySplit`: walk the characters, cutting at each separator;
`cur` is the reversed current field. -/
def splitAux (sep : Char) (cs : List Char) (cur : List Char) : List String :=
  match cs with
  | [] => [String.mk cur.reverse]
  | c :: rest =>
    if c = sep then String.mk cur.reverse :: splitAux sep rest []
    else splitAux sep rest (c :: cur)

/-- Python's `str.split(sep)` for a one-character separator, as used by
`file_name.split("-")`: cut at every occurrence, keeping empty fields
(so a string with no separator yields a single one-field list). -/
def pySplit (sep : Char) (s : String) : List String :=
  splitAux sep s.data []

/-- The label-derivation fragment of the loop body (lines 70-77): split the
basename on hyphens; with fewer than 3 fields the file is skipped (no
label); otherwise the 0-indexed field 2 is the emotion code looked up in
`EMOTIONS`. -/
def derive_label (file_name : String) : Option String :=
  let parts := pySplit '-' file_name
  if parts.length < 3 then none
  else emotionsGet (parts.getD 2 "")

/-- The body of the per-file loop in `process_data`: split the basename on
hyphens, `continue` (leave both accumulators unchanged) when fewer than 3
fields, otherwise look up `parts[2]` in `EMOTIONS`, run
`extract_features`, and append to both accumulators exactly when features
and label are both non-`None`. -/
def processStep (acc : List Mat × List String) (f : AudioFile) :
    List Mat × List String :=
  let parts := pySplit '-' f.name
  if parts.length < 3 then acc
  else
    let emotion_code := parts.getD 2 ""
    let label := emotionsGet emotion_code
    let features := extract_features f
    match features, label with
    | some m, some l => (acc.1 ++ [m], acc.2 ++ [l])
    | _, _ => acc

/-- Shape of `np.array` applied to a list of 2-D matrices: the empty list
gives the 1-D shape `(0,)`; a non-empty homogeneous list of `r x c`
matrices gives `(k, r, c)`.  (The script only ever stacks an empty list or
a homogeneous one, since every retained matrix is `MAX_LEN x N_MFCC`.) -/
def npStackShape (X : List Mat) : List Nat :=
  match X with
  | [] => [0]
  | m :: _ => [X.length, m.length, (m.headD []).length]

/-- What `process_data` persists when it does not return early: the two
accumulated lists and the shapes of the two saved numpy arrays
(`X[..., np.newaxis]` appends a trailing singleton dimension). -/
structure SavedOutput where
  X : List Mat
  y : List String
  X_shape : List Nat
  y_len : Nat
deriving Repr, DecidableEq

/-- `process_data()` on a discovered file list: with no files it logs and
returns early — modelled as `none`, meaning no output directory is
created and nothing is written.  Otherwise it folds the loop body over the
files, stacks the accumulators, appends the channel axis to `X`, creates
the output directory and saves both arrays — modelled as `some` of the
persisted output. -/
def process_data (wav_files : List AudioFile) : Option SavedOutput :=
  if wav_files.isEmpty then none
  else
    let Xy := wav_files.foldl processStep ([], [])
    some ⟨Xy.1, Xy.2, npStackShape Xy.1 ++ [1], Xy.2.length⟩

/-! ### Helper lemmas about the pad/truncate normalisation -/

/-- The normalised matrix always has exactly `MAX_LEN` rows. -/
theorem pad_or_truncate_length (mfcc : Mat) :
    (pad_or_truncate mfcc).length = MAX_LEN := by
  unfold pad_or_truncate
  split
  · simp only [List.length_append, List.length_replicate]
    omega
  · simp only [List.length_take]
    omega

/-- If every raw row has `N_MFCC` entries, so does every normalised row. -/
theorem pad_or_truncate_rows (mfcc : Mat)
    (h : ∀ row ∈ mfcc, row.length = N_MFCC) :
    ∀ row ∈ pad_or_truncate mfcc, row.length = N_MFCC := by
  intro row hrow
  unfold pad_or_truncate at hrow
  split at hrow
  · rcases List.mem_append.1 hrow with h1 | h2
    · exact h row h1
    · rw [List.eq_of_mem_replicate h2]
      simp
  · exact h row (List.take_subset _ _ hrow)

/-- In the padding branch the result is the raw matrix followed by zero rows. -/
theorem pad_or_truncate_of_lt (mfcc : Mat) (h : mfcc.length < MAX_LEN) :
    pad_or_truncate mfcc =
      mfcc ++ List.replicate (MAX_LEN - mfcc.length) (List.replicate N_MFCC 0) := by
  unfold pad_or_truncate
  rw [if_pos h]

/-- In the truncation branch the result is the `MAX_LEN`-row prefix. -/
theorem pad_or_truncate_of_ge (mfcc : Mat) (h : MAX_LEN ≤ mfcc.length) :
    pad_or_truncate mfcc = mfcc.take MAX_LEN := by
  unfold pad_or_truncate
  rw [if_neg (Nat.not_lt.2 h)]

/-! ### Claims C1, C2, C3: shape of extracted features -/

/-- Claim C1: for every input on which extraction succeeds (the raw MFCC
matrix decodes, so `extract_features` does not return `None`), the
returned matrix has exactly `MAX_LEN = 173` rows and `N_MFCC = 40`
columns, regardless of the input audio's duration (the raw row count). -/
theorem C1_extract_features_fixed_shape (f : AudioFile) (m : Mat)
    (hm : extract_features f = some m)
    (hrows : ∀ mfcc, f.decoded = some mfcc → ∀ row ∈ mfcc, row.length = N_MFCC) :
    m.length = MAX_LEN ∧ ∀ row ∈ m, row.length = N_MFCC := by
  cases hd : f.decoded with
  | none => simp [extract_features, hd] at hm
  | some mfcc =>
    simp only [extract_features, hd, Option.some.injEq] at hm
    subst hm
    exact ⟨pad_or_truncate_length mfcc, pad_or_truncate_rows mfcc (hrows mfcc hd)⟩

/-- Witness for C1 at a concrete input: an empty raw matrix yields the
all-zero `173 x 40` matrix. -/
theorem C1_extract_features_fixed_shape_witness :
    extract_features ⟨"a.wav", some []⟩ =
      some (List.replicate MAX_LEN (List.replicate N_MFCC 0)) ∧
    ((List.replicate MAX_LEN (List.replicate N_MFCC (0 : Int))).length = MAX_LEN ∧
      ∀ row ∈ List.replicate MAX_LEN (List.replicate N_MFCC (0 : Int)),
        row.length = N_MFCC) :=
  ⟨rfl, C1_extract_features_fixed_shape ⟨"a.wav", some []⟩ _ rfl
    (by intro mfcc hmf row hr; cases hmf; simp at hr)⟩

/-- Claim C2: when the raw matrix has `k < MAX_LEN` rows, the returned
matrix agrees with the raw matrix on its first `k` rows and every row
from index `k` to `MAX_LEN - 1` is entirely zero. -/
theorem C2_short_input_zero_padded (f : AudioFile) (mfcc m : Mat)
    (hd : f.decoded = some mfcc)
    (hshort : mfcc.length < MAX_LEN)
    (hm : extract_features f = some m) :
    m.take mfcc.length = mfcc ∧
    ∀ i, mfcc.length ≤ i → i < MAX_LEN → ∀ x ∈ m.getD i [], x = 0 := by
  simp only [extract_features, hd, Option.some.injEq] at hm
  subst hm
  rw [pad_or_truncate_of_lt mfcc hshort]
  constructor
  · exact List.take_left mfcc _
  · intro i hk hlen x hx
    rw [List.getD_eq_getElem?_getD, List.getElem?_append_right hk,
        List.getElem?_replicate] at hx
    rw [if_pos (by omega)] at hx
    simp only [Option.getD_some] at hx
    exact List.eq_of_mem_replicate hx

/-- Witness for C2 at a concrete input: one raw row, padded with 172 zero
rows. -/
theorem C2_short_input_zero_padded_witness :
    (⟨"b.wav", some [[5]]⟩ : AudioFile).decoded = some [[5]] ∧
    ([[(5 : Int)]] : Mat).length < MAX_LEN ∧
    extract_features ⟨"b.wav", some [[5]]⟩ =
      some ([[5]] ++ List.replicate 172 (List.replicate N_MFCC 0)) ∧
    (([[5]] ++ List.replicate 172 (List.replicate N_MFCC (0 : Int))).take 1 = [[5]] ∧
      ∀ i, 1 ≤ i → i < MAX_LEN →
        ∀ x ∈ ([[5]] ++ List.replicate 172 (List.replicate N_MFCC (0 : Int))).getD i [],
          x = 0) :=
  ⟨rfl, by decide, rfl,
    C2_short_input_zero_padded ⟨"b.wav", some [[5]]⟩ [[5]] _ rfl (by decide) rfl⟩

/-- Claim C3: when the raw matrix has at least `MAX_LEN` rows, the returned
matrix is exactly the `MAX_LEN`-row prefix of the raw matrix — the
retained rows are unmodified and the rest are discarded. -/
theorem C3_long_input_truncated (f : AudioFile) (mfcc : Mat)
    (hd : f.decoded = some mfcc)
    (hlong : MAX_LEN ≤ mfcc.length) :
    extract_features f = some (mfcc.take MAX_LEN) ∧
    (mfcc.take MAX_LEN).length = MAX_LEN := by
  constructor
  · simp only [extract_features, hd, Option.some.injEq]
    exact pad_or_truncate_of_ge mfcc hlong
  · simp only [List.length_take]
    omega

/-- Witness for C3 at a concrete input: 173 one-entry rows followed by a
174th, which truncation discards. -/
theorem C3_long_input_truncated_witness :
    (⟨"c.wav", some (List.replicate 174 [7])⟩ : AudioFile).decoded =
      some (List.replicate 174 [7]) ∧
    MAX_LEN ≤ (List.replicate 174 [(7 : Int)]).length ∧
    (extract_features ⟨"c.wav", some (List.replicate 174 [7])⟩ =
        some ((List.replicate 174 [(7 : Int)]).take MAX_LEN) ∧
      ((List.replicate 174 [(7 : Int)]).take MAX_LEN).length = MAX_LEN) :=
  ⟨rfl, by norm_num [MAX_LEN],
    C3_long_input_truncated ⟨"c.wav", some (List.replicate 174 [7])⟩ _ rfl
      (by norm_num [MAX_LEN])⟩

/-! ### Claim C4: filename-to-label derivation -/

/-- A code that is none of the 8 table keys looks up to `None`. -/
theorem emotionsGet_eq_none_of_unknown (c : String)
    (hc : c ∉ ["01", "02", "03", "04", "05", "06", "07", "08"]) :
    emotionsGet c = none := by
  simp only [List.mem_cons, List.not_mem_nil, or_false, not_or] at hc
  obtain ⟨h1, h2, h3, h4, h5, h6, h7, h8⟩ := hc
  simp [emotionsGet, EMOTIONS, List.lookup,
    beq_eq_false_iff_ne.mpr h1, beq_eq_false_iff_ne.mpr h2,
    beq_eq_false_iff_ne.mpr h3, beq_eq_false_iff_ne.mpr h4,
    beq_eq_false_iff_ne.mpr h5, beq_eq_false_iff_ne.mpr h6,
    beq_eq_false_iff_ne.mpr h7, beq_eq_false_iff_ne.mpr h8]

/-- Claim C4: for any basename with at least 3 hyphen-delimited fields, the
derived label is the lookup of the field at 0-indexed position 2 in the
fixed 8-entry `EMOTIONS` mapping; the 8 entries are exactly as listed;
any other code yields no label; and the basename
`03-01-06-01-02-01-12.wav` yields `fearful`. -/
theorem C4_label_derivation :
    (∀ name, 3 ≤ (pySplit '-' name).length →
      derive_label name = emotionsGet ((pySplit '-' name).getD 2 "")) ∧
    emotionsGet "01" = some "neutral" ∧ emotionsGet "02" = some "calm" ∧
    emotionsGet "03" = some "happy" ∧ emotionsGet "04" = some "sad" ∧
    emotionsGet "05" = some "angry" ∧ emotionsGet "06" = some "fearful" ∧
    emotionsGet "07" = some "disgust" ∧ emotionsGet "08" = some "surprised" ∧
    (∀ c, c ∉ ["01", "02", "03", "04", "05", "06", "07", "08"] →
      emotionsGet c = none) ∧
    derive_label "03-01-06-01-02-01-12.wav" = some "fearful" := by
  refine ⟨?_, by decide, by decide, by decide, by decide, by decide, by decide,
    by decide, by decide, emotionsGet_eq_none_of_unknown, by decide⟩
  intro name hlen
  simp only [derive_label]
  rw [if_neg (Nat.not_lt.2 hlen)]

/-- Witness for C4 at concrete inputs: the worked RAVDESS example name and
the unknown code 99. -/
theorem C4_label_derivation_witness :
    3 ≤ (pySplit '-' "03-01-06-01-02-01-12.wav").length ∧
    derive_label "03-01-06-01-02-01-12.wav" =
      emotionsGet ((pySplit '-' "03-01-06-01-02-01-12.wav").getD 2 "") ∧
    "99" ∉ ["01", "02", "03", "04", "05", "06", "07", "08"] ∧
    emotionsGet "99" = none :=
  ⟨by decide, C4_label_derivation.1 "03-01-06-01-02-01-12.wav" (by decide),
    by decide, C4_label_derivation.2.2.2.2.2.2.2.2.2.1 "99" (by decide)⟩

/-! ### Helper lemmas about the per-file loop body -/

/-- A file whose basename has fewer than 3 hyphen fields is skipped. -/
theorem processStep_skip_short_name (acc : List Mat × List String)
    (f : AudioFile) (h : (pySplit '-' f.name).length < 3) :
    processStep acc f = acc := by
  simp [processStep, h]

/-- A file whose decode fails contributes nothing to either accumulator. -/
theorem processStep_skip_decode_fail (acc : List Mat × List String)
    (f : AudioFile) (h : f.decoded = none) :
    processStep acc f = acc := by
  by_cases hp : (pySplit '-' f.name).length < 3
  · simp [processStep, hp]
  · simp [processStep, hp, extract_features, h]

/-- A file whose emotion code is not in the table contributes nothing. -/
theorem processStep_skip_unknown_code (acc : List Mat × List String)
    (f : AudioFile)
    (h : emotionsGet ((pySplit '-' f.name).getD 2 "") = none) :
    processStep acc f = acc := by
  rw [List.getD_eq_getElem?_getD] at h
  by_cases hp : (pySplit '-' f.name).length < 3
  · simp [processStep, hp]
  · cases hf : extract_features f <;> simp [processStep, hp, h, hf]

/-- Each loop iteration either leaves both accumulators unchanged or
appends one normalised matrix to `X` and one label to `y`. -/
theorem processStep_cases (acc : List Mat × List String) (f : AudioFile) :
    processStep acc f = acc ∨
    ∃ mfcc l, f.decoded = some mfcc ∧
      processStep acc f = (acc.1 ++ [pad_or_truncate mfcc], acc.2 ++ [l]) := by
  by_cases hp : (pySplit '-' f.name).length < 3
  · exact Or.inl (by simp [processStep, hp])
  · cases hd : f.decoded with
    | none =>
      exact Or.inl (by simp [processStep, hp, extract_features, hd])
    | some mfcc =>
      cases hl : emotionsGet ((pySplit '-' f.name)[2]?.getD "") with
      | none =>
        exact Or.inl (by simp [processStep, hp, hl, extract_features, hd])
      | some l =>
        refine Or.inr ⟨mfcc, l, rfl, ?_⟩
        simp [processStep, hp, hl, extract_features, hd]

/-- A file that decodes, has at least 3 hyphen fields and a known emotion
code appends exactly one normalised matrix and one label. -/
theorem processStep_retained (acc : List Mat × List String) (f : AudioFile)
    (mfcc : Mat) (l : String)
    (hd : f.decoded = some mfcc)
    (hp : 3 ≤ (pySplit '-' f.name).length)
    (hl : emotionsGet ((pySplit '-' f.name).getD 2 "") = some l) :
    processStep acc f = (acc.1 ++ [pad_or_truncate mfcc], acc.2 ++ [l]) := by
  rw [List.getD_eq_getElem?_getD] at hl
  simp [processStep, Nat.not_lt.2 hp, extract_features, hd, hl]

/-- A file is retained by the loop exactly when it decodes, its basename
has at least 3 hyphen fields, and its emotion code is in the table. -/
def isGood (f : AudioFile) : Bool :=
  f.decoded.isSome &&
  decide (3 ≤ (pySplit '-' f.name).length) &&
  (emotionsGet ((pySplit '-' f.name).getD 2 "")).isSome

/-- Unfolding of `isGood` into its three conditions. -/
theorem isGood_iff (f : AudioFile) :
    isGood f = true ↔
      (∃ m, f.decoded = some m) ∧
      3 ≤ (pySplit '-' f.name).length ∧
      ∃ l, emotionsGet ((pySplit '-' f.name).getD 2 "") = some l := by
  simp [isGood, Option.isSome_iff_exists, and_assoc]

/-- Counting lemma for the loop: starting from any accumulator pair, the
fold adds exactly one element to each accumulator per good file, provided
every file is either good or a decode failure. -/
theorem foldl_processStep_length :
    ∀ (wav_files : List AudioFile) (acc : List Mat × List String),
      (∀ f ∈ wav_files, isGood f = true ∨ f.decoded = none) →
      (wav_files.foldl processStep acc).1.length =
          acc.1.length + wav_files.countP isGood ∧
      (wav_files.foldl processStep acc).2.length =
          acc.2.length + wav_files.countP isGood := by
  intro wav_files
  induction wav_files with
  | nil => intro acc _; simp
  | cons f fs ih =>
    intro acc hgf
    have htail : ∀ g ∈ fs, isGood g = true ∨ g.decoded = none :=
      fun g hg => hgf g (List.mem_cons_of_mem f hg)
    rw [List.foldl_cons, List.countP_cons]
    rcases hgf f (List.mem_cons_self f fs) with hgood | hfail
    · obtain ⟨⟨mfcc, hd⟩, hp, l, hl⟩ := (isGood_iff f).1 hgood
      rw [processStep_retained acc f mfcc l hd hp hl]
      obtain ⟨e1, e2⟩ := ih (acc.1 ++ [pad_or_truncate mfcc], acc.2 ++ [l]) htail
      rw [e1, e2]
      simp [hgood]
      omega
    · have hbad : isGood f = false := by simp [isGood, hfail]
      rw [processStep_skip_decode_fail acc f hfail]
      obtain ⟨e1, e2⟩ := ih acc htail
      rw [e1, e2]
      simp [hbad]

/-- Every matrix the fold adds to the feature accumulator is a normalised
`MAX_LEN x N_MFCC` matrix (assuming raw rows have `N_MFCC` entries). -/
theorem foldl_processStep_mem :
    ∀ (wav_files : List AudioFile) (acc : List Mat × List String),
      (∀ f ∈ wav_files, ∀ m, f.decoded = some m → ∀ row ∈ m, row.length = N_MFCC) →
      ∀ mtx ∈ (wav_files.foldl processStep acc).1,
        mtx ∈ acc.1 ∨ (mtx.length = MAX_LEN ∧ ∀ row ∈ mtx, row.length = N_MFCC) := by
  intro wav_files
  induction wav_files with
  | nil => intro acc _ mtx hm; exact Or.inl hm
  | cons f fs ih =>
    intro acc hrows mtx hm
    rw [List.foldl_cons] at hm
    have htail := fun g hg => hrows g (List.mem_cons_of_mem f hg)
    rcases ih (processStep acc f) htail mtx hm with hacc | hok
    · rcases processStep_cases acc f with hstep | ⟨mfcc, l, hd, hstep⟩
      · rw [hstep] at hacc
        exact Or.inl hacc
      · rw [hstep] at hacc
        rcases List.mem_append.1 hacc with h1 | h2
        · exact Or.inl h1
        · right
          rw [List.mem_singleton.1 h2]
          exact ⟨pad_or_truncate_length mfcc,
            pad_or_truncate_rows mfcc (hrows f (List.mem_cons_self f fs) mfcc hd)⟩
    · exact Or.inr hok

/-- A fold in which every file is skipped leaves the accumulators unchanged. -/
theorem foldl_processStep_all_skipped :
    ∀ (wav_files : List AudioFile),
      (∀ f ∈ wav_files, f.decoded = none ∨
        (pySplit '-' f.name).length < 3 ∨
        emotionsGet ((pySplit '-' f.name).getD 2 "") = none) →
      ∀ acc, wav_files.foldl processStep acc = acc := by
  intro wav_files
  induction wav_files with
  | nil => intro _ acc; rfl
  | cons f fs ih =>
    intro hs acc
    rw [List.foldl_cons]
    have hstep : processStep acc f = acc := by
      rcases hs f (List.mem_cons_self f fs) with h | h | h
      · exact processStep_skip_decode_fail acc f h
      · exact processStep_skip_short_name acc f h
      · exact processStep_skip_unknown_code acc f h
    rw [hstep]
    exact ih (fun g hg => hs g (List.mem_cons_of_mem f hg)) acc

/-! ### Claims C5-C10: the end-to-end pipeline -/

/-- Counterexample to claim C5 as stated: with N = 0 retained files and
M = 1 decode failure, the saved feature tensor has shape `(0, 1)`, not
`(N, MAX_LEN, N_MFCC, 1)`. -/
theorem C5_counterexample_empty_stack :
    process_data [⟨"03-01-05-01-02-01-12.wav", none⟩] =
      some ⟨[], [], [0, 1], 0⟩ ∧
    ([0, 1] : List Nat) ≠ [0, MAX_LEN, N_MFCC, 1] :=
  ⟨rfl, by decide⟩

/-- Claim C5 (amended with N ≥ 1): if every discovered file either is
retained (decodes, parses, known code) or fails decoding, at least one is
retained, and raw rows have `N_MFCC` entries, then the pipeline writes a
dataset of exactly N = (number of retained files) samples: feature tensor
shape `(N, MAX_LEN, N_MFCC, 1)` and label vector of length N. -/
theorem C5_dataset_size (wav_files : List AudioFile)
    (hne : wav_files ≠ [])
    (hclass : ∀ f ∈ wav_files, isGood f = true ∨ f.decoded = none)
    (hrows : ∀ f ∈ wav_files, ∀ m, f.decoded = some m →
      ∀ row ∈ m, row.length = N_MFCC)
    (hN : 0 < wav_files.countP isGood) :
    ∃ out, process_data wav_files = some out ∧
      out.X_shape = [wav_files.countP isGood, MAX_LEN, N_MFCC, 1] ∧
      out.y_len = wav_files.countP isGood := by
  obtain ⟨e1, e2⟩ := foldl_processStep_length wav_files ([], []) hclass
  simp only [List.length_nil, Nat.zero_add] at e1 e2
  refine ⟨⟨(wav_files.foldl processStep ([], [])).1,
    (wav_files.foldl processStep ([], [])).2,
    npStackShape (wav_files.foldl processStep ([], [])).1 ++ [1],
    (wav_files.foldl processStep ([], [])).2.length⟩, ?_, ?_, e2⟩
  · unfold process_data
    rw [if_neg (by simp [hne])]
  · cases hXl : (wav_files.foldl processStep ([], [])).1 with
    | nil => rw [hXl] at e1; simp at e1; omega
    | cons mtx rest =>
      have hmem : mtx ∈ (wav_files.foldl processStep ([], [])).1 := by
        rw [hXl]; exact List.mem_cons_self mtx rest
      rcases foldl_processStep_mem wav_files ([], []) hrows mtx hmem with habs | hok
      · simp at habs
      · obtain ⟨hlen, hrow⟩ := hok
        have hne2 : mtx ≠ [] := by
          intro hc; rw [hc] at hlen; simp [MAX_LEN] at hlen
        have hhead : mtx.headD [] ∈ mtx := by
          cases mtx with
          | nil => exact absurd rfl hne2
          | cons r rs => exact List.mem_cons_self r rs
        have hlen2 : (mtx :: rest).length = wav_files.countP isGood := by
          rw [← hXl]
          exact e1
        show npStackShape (mtx :: rest) ++ [1] = _
        simp only [npStackShape]
        rw [hlen2, hlen, hrow (mtx.headD []) hhead]
        rfl

/-- Witness for the amended C5 at a single retained file (the worked
RAVDESS example name, decoding to an empty raw matrix). -/
theorem C5_dataset_size_witness :
    ([(⟨"03-01-06-01-02-01-12.wav", some []⟩ : AudioFile)] ≠ []) ∧
    (0 < List.countP isGood [(⟨"03-01-06-01-02-01-12.wav", some []⟩ : AudioFile)]) ∧
    ∃ out,
      process_data [(⟨"03-01-06-01-02-01-12.wav", some []⟩ : AudioFile)] = some out ∧
      out.X_shape =
        [List.countP isGood [(⟨"03-01-06-01-02-01-12.wav", some []⟩ : AudioFile)],
          MAX_LEN, N_MFCC, 1] ∧
      out.y_len =
        List.countP isGood [(⟨"03-01-06-01-02-01-12.wav", some []⟩ : AudioFile)] :=
  ⟨by simp, by decide,
    C5_dataset_size [⟨"03-01-06-01-02-01-12.wav", some []⟩] (by simp) (by decide)
      (by
        intro f hf m hm row hr
        simp only [List.mem_singleton] at hf
        subst hf
        injection hm with h
        subst h
        exact absurd hr (List.not_mem_nil row))
      (by decide)⟩

/-- Claim C6: with no discovered files, `process_data` returns early —
nothing is stacked, no output directory is created, nothing is written
(modelled by the `none` result). -/
theorem C6_no_files_early_return : process_data [] = none := rfl

/-- Claim C7: when decoding or MFCC computation fails, `extract_features`
returns `None` instead of raising, the loop body leaves both accumulators
unchanged, and the fold continues with the remaining files. -/
theorem C7_decode_error_skipped (f : AudioFile) (h : f.decoded = none) :
    extract_features f = none ∧
    (∀ acc, processStep acc f = acc) ∧
    ∀ (acc : List Mat × List String) (rest : List AudioFile),
      (f :: rest).foldl processStep acc = rest.foldl processStep acc := by
  refine ⟨by simp [extract_features, h],
    fun acc => processStep_skip_decode_fail acc f h, ?_⟩
  intro acc rest
  rw [List.foldl_cons, processStep_skip_decode_fail acc f h]

/-- Witness for C7 at a concrete failing file. -/
theorem C7_decode_error_skipped_witness :
    (⟨"03-01-02-01-01-01-05.wav", none⟩ : AudioFile).decoded = none ∧
    extract_features ⟨"03-01-02-01-01-01-05.wav", none⟩ = none ∧
    processStep ([], []) ⟨"03-01-02-01-01-01-05.wav", none⟩ = ([], []) ∧
    List.foldl processStep ([], [])
        [(⟨"03-01-02-01-01-01-05.wav", none⟩ : AudioFile)] =
      List.foldl processStep ([], []) ([] : List AudioFile) :=
  ⟨rfl, (C7_decode_error_skipped ⟨"03-01-02-01-01-01-05.wav", none⟩ rfl).1,
    (C7_decode_error_skipped ⟨"03-01-02-01-01-01-05.wav", none⟩ rfl).2.1 ([], []),
    (C7_decode_error_skipped ⟨"03-01-02-01-01-01-05.wav", none⟩ rfl).2.2 ([], []) []⟩

/-- Claim C8: a file whose basename has fewer than 3 hyphen fields is
skipped: it derives no label and contributes nothing to either
accumulator. -/
theorem C8_unparseable_name_skipped (f : AudioFile)
    (h : (pySplit '-' f.name).length < 3) :
    derive_label f.name = none ∧ ∀ acc, processStep acc f = acc := by
  refine ⟨?_, fun acc => processStep_skip_short_name acc f h⟩
  simp [derive_label, h]

/-- Witness for C8: the file `badname.wav` (no hyphens) is skipped even
though it decodes. -/
theorem C8_unparseable_name_skipped_witness :
    (pySplit '-' "badname.wav").length < 3 ∧
    derive_label "badname.wav" = none ∧
    processStep ([], []) ⟨"badname.wav", some []⟩ = ([], []) :=
  ⟨by decide,
    (C8_unparseable_name_skipped ⟨"badname.wav", some []⟩ (by decide)).1,
    (C8_unparseable_name_skipped ⟨"badname.wav", some []⟩ (by decide)).2 ([], [])⟩

/-- Claim C9: each loop iteration appends to both accumulators or to
neither, so from any equal-length start the feature and label accumulators
keep equal length throughout the fold. -/
theorem C9_accumulators_aligned :
    (∀ (acc : List Mat × List String) (f : AudioFile),
      processStep acc f = acc ∨
      ∃ m l, processStep acc f = (acc.1 ++ [m], acc.2 ++ [l])) ∧
    ∀ (wav_files : List AudioFile) (accX : List Mat) (accY : List String),
      accX.length = accY.length →
      (wav_files.foldl processStep (accX, accY)).1.length =
        (wav_files.foldl processStep (accX, accY)).2.length := by
  have hstep : ∀ (acc : List Mat × List String) (f : AudioFile),
      processStep acc f = acc ∨
      ∃ m l, processStep acc f = (acc.1 ++ [m], acc.2 ++ [l]) := by
    intro acc f
    rcases processStep_cases acc f with h | ⟨mfcc, l, _, h⟩
    · exact Or.inl h
    · exact Or.inr ⟨pad_or_truncate mfcc, l, h⟩
  refine ⟨hstep, ?_⟩
  intro wav_files
  induction wav_files with
  | nil => intro accX accY h; simpa using h
  | cons f fs ih =>
    intro accX accY h
    rw [List.foldl_cons]
    rcases hstep (accX, accY) f with he | ⟨m, l, he⟩
    · rw [he]
      exact ih accX accY h
    · rw [he]
      exact ih (accX ++ [m]) (accY ++ [l]) (by simp [h])

/-- Witness for C9 at a concrete fold. -/
theorem C9_accumulators_aligned_witness :
    (processStep ([], []) ⟨"03-01-03-01-01-01-01.wav", some []⟩ = ([], []) ∨
      ∃ m l, processStep ([], []) ⟨"03-01-03-01-01-01-01.wav", some []⟩ =
        (([] : List Mat) ++ [m], ([] : List String) ++ [l])) ∧
    ([] : List Mat).length = ([] : List String).length ∧
    (List.foldl processStep ([], [])
        [(⟨"03-01-03-01-01-01-01.wav", some []⟩ : AudioFile)]).1.length =
      (List.foldl processStep ([], [])
        [(⟨"03-01-03-01-01-01-01.wav", some []⟩ : AudioFile)]).2.length :=
  ⟨C9_accumulators_aligned.1 ([], []) ⟨"03-01-03-01-01-01-01.wav", some []⟩, rfl,
    C9_accumulators_aligned.2 [⟨"03-01-03-01-01-01-01.wav", some []⟩] [] [] rfl⟩

/-- Claim C10: when files are discovered but none is retained, the
pipeline still writes both outputs, and the saved feature tensor is
2-dimensional with shape `(0, 1)` — stacking the empty list gives shape
`(0,)` and the channel axis makes it `(0, 1)` — not 4-dimensional. -/
theorem C10_empty_retention_writes_0_1 (wav_files : List AudioFile)
    (hne : wav_files ≠ [])
    (hskip : ∀ f ∈ wav_files, f.decoded = none ∨
      (pySplit '-' f.name).length < 3 ∨
      emotionsGet ((pySplit '-' f.name).getD 2 "") = none) :
    ∃ out, process_data wav_files = some out ∧
      out.X_shape = [0, 1] ∧ out.X_shape.length ≠ 4 := by
  have hfold := foldl_processStep_all_skipped wav_files hskip ([], [])
  refine ⟨⟨[], [], [0, 1], 0⟩, ?_, rfl, by decide⟩
  unfold process_data
  rw [if_neg (by simp [hne])]
  rw [hfold]
  rfl

/-- Witness for C10 at a single undecodable file. -/
theorem C10_empty_retention_writes_0_1_witness :
    ([(⟨"y.wav", none⟩ : AudioFile)] ≠ []) ∧
    (∀ f ∈ [(⟨"y.wav", none⟩ : AudioFile)], f.decoded = none ∨
      (pySplit '-' f.name).length < 3 ∨
      emotionsGet ((pySplit '-' f.name).getD 2 "") = none) ∧
    ∃ out, process_data [(⟨"y.wav", none⟩ : AudioFile)] = some out ∧
      out.X_shape = [0, 1] ∧ out.X_shape.length ≠ 4 :=
  ⟨by simp, by decide,
    C10_empty_retention_writes_0_1 [⟨"y.wav", none⟩] (by simp) (by decide)⟩

end DatasetPy
